import Mathlib

/-!
Shallow embedding of the BL600 mobile-module control program
(`src/modules/mobile/main.cpp`) and verification of its specification.

Pure logic (version compare, tokenizing, `strtoul`-based parsing, the
firmware check pipeline) is embedded directly from the source.  External
collaborators that live outside the visible source (`tty_open`,
`tty_set_speed`, `tty_use_ctsrts`, `exec_AT_verbose`,
`process_one_command`, `task_spawn_cmd`, libc `close`/`errno`) are
modelled as oracles / explicit outcome parameters, faithful to the spec's
description of them.
-/

namespace Firmware

/-- Embeds `version_firmware_compare_le` (main.cpp:157-172).  In the C
source `min` is a `uint8_t[4]` and `ver` an `unsigned[4]`; usual
arithmetic conversions make every comparison a plain comparison of
non-negative values, so both tuples are modelled as `Nat` 4-tuples. -/
def version_firmware_compare_le (m v : Nat × Nat × Nat × Nat) : Bool :=
  decide (m.1 < v.1) ||
  (decide (m.1 = v.1) && (decide (m.2.1 < v.2.1) ||
    (decide (m.2.1 = v.2.1) && (decide (m.2.2.1 < v.2.2.1) ||
      (decide (m.2.2.1 = v.2.2.1) && decide (m.2.2.2 ≤ v.2.2.2))))))

/-- The two global daemon flags of main.cpp:28-29.
`daemon_should_run` is the spec's `requested_run`,
`daemon_running` the spec's `actually_running`. -/
structure DaemonState where
  daemon_should_run : Bool
  daemon_running : Bool
deriving DecidableEq, Repr

/-- Embeds `maintenance_allowed` (main.cpp:79-84): reads only the
`daemon_running` flag and returns its negation. -/
def maintenance_allowed (st : DaemonState) : Bool :=
  ! st.daemon_running

/-- The delimiter set of `version_firmware_parse` (main.cpp:141): the C
string `".\n\r"`. -/
def isSep (c : Char) : Bool :=
  c = '.' || c = '\n' || c = '\r'

/-- Scanner for the sequence of tokens produced by repeated `strtok_r`
calls: `cur` is the (reversed) non-separator run being read.  A
separator ends the current run; runs of consecutive separators yield no
empty token. -/
def strtok_r_go : List Char → List Char → List (List Char)
  | [], cur => if cur = [] then [] else [cur.reverse]
  | c :: cs, cur =>
    if isSep c then
      if cur = [] then strtok_r_go cs []
      else cur.reverse :: strtok_r_go cs []
    else strtok_r_go cs (c :: cur)

/-- The sequence of tokens produced by repeated `strtok_r` calls on the
separator set `".\n\r"` (main.cpp:144-153): maximal runs of
non-separator characters; consecutive separators are treated as one, so
no empty token is ever produced. -/
def strtok_r_all (s : List Char) : List (List Char) :=
  strtok_r_go s []

/-- `isspace` of the C locale, used by `strtoul` to skip leading white
space. -/
def isCSpace (c : Char) : Bool :=
  c = ' ' || c = '\t' || c = '\n' || c = Char.ofNat 11 || c = Char.ofNat 12 || c = '\r'

/-- Value of a digit character in the given base, `none` if the
character is not a digit of that base. -/
def digitVal? (base : Nat) (c : Char) : Option Nat :=
  let v : Option Nat :=
    if 48 ≤ c.toNat ∧ c.toNat ≤ 57 then some (c.toNat - 48)
    else if 97 ≤ c.toNat ∧ c.toNat ≤ 102 then some (c.toNat - 97 + 10)
    else if 65 ≤ c.toNat ∧ c.toNat ≤ 70 then some (c.toNat - 65 + 10)
    else none
  match v with
  | some d => if d < base then some d else none
  | none => none

/-- Consume a maximal run of digits of `base`, folding them into an
accumulator; returns the exact (unbounded) value and the unconsumed
tail. -/
def takeDigits (base : Nat) : List Char → Nat → Nat × List Char
  | [], acc => (acc, [])
  | c :: cs, acc =>
    match digitVal? base c with
    | some d => takeDigits base cs (acc * base + d)
    | none => (acc, c :: cs)

/-- `ULONG_MAX` on the 32-bit NuttX target. -/
def ULONG_MAX : Nat := 2 ^ 32 - 1

/-- Modelled from the spec: C-standard semantics of `strtoul(s, &p, 0)`
as called by `parse_uint` (main.cpp:119-126); `strtoul` itself is libc,
outside the visible source.  Skips leading white space, accepts an
optional sign, detects base (hex after `0x`/`0X` with at least one hex
digit, octal after a leading `0`, decimal otherwise), clamps a too-large
magnitude to `ULONG_MAX`, and negates modulo 2³² under a minus sign.
Returns `none` when no conversion is performed (`endptr == s`),
otherwise `some (value, tail)` with `tail` the suffix at `endptr`. -/
def strtoul0 (s : List Char) : Option (Nat × List Char) :=
  let s1 := s.dropWhile isCSpace
  let signAndRest : Bool × List Char :=
    match s1 with
    | '-' :: r => (true, r)
    | '+' :: r => (false, r)
    | _ => (false, s1)
  let neg := signAndRest.1
  let s2 := signAndRest.2
  let magAndTail : Option (Nat × List Char) :=
    match s2 with
    | '0' :: x :: r =>
      if (x = 'x' || x = 'X') && (digitVal? 16 (r.headD 'g')).isSome then
        some (takeDigits 16 r 0)
      else
        some (takeDigits 8 (x :: r) 0)
    | ['0'] => some (0, [])
    | _ =>
      match digitVal? 10 (s2.headD 'g') with
      | some _ => some (takeDigits 10 s2 0)
      | none => none
  match magAndTail with
  | none => none
  | some (mag, tail) =>
    let v :=
      if ULONG_MAX < mag then ULONG_MAX
      else if neg then (2 ^ 32 - mag) % 2 ^ 32
      else mag
    some (v, tail)

/-- Embeds the three-argument `parse_uint` (main.cpp:119-126):
`n = strtoul(s, &p, 0); tail = p; return tail != s;`.  Result is
`(n, tail, ok)`. -/
def parse_uint_at (s : List Char) : Nat × List Char × Bool :=
  match strtoul0 s with
  | some (v, tail) => (v, tail, true)
  | none => (0, s, false)

/-- Embeds the two-argument `parse_uint` (main.cpp:128-135): succeeds
iff a conversion was performed and the tail is at the terminating NUL
(here: the empty list). -/
def parse_uint (s : List Char) : Option Nat :=
  let r := parse_uint_at s
  if r.2.2 && decide (r.2.1 = []) then some r.1 else none

/-- The token loop of `version_firmware_parse` (main.cpp:144-153):
parse each token, fail on the first parse failure, succeed as soon as
four components are collected. -/
def vfp_loop : List (List Char) → List Nat → Option (List Nat)
  | [], _ => none
  | n :: rest, acc =>
    match parse_uint n with
    | none => none
    | some x =>
      if acc.length + 1 = 4 then some (acc ++ [x])
      else vfp_loop rest (acc ++ [x])

/-- Embeds `version_firmware_parse` (main.cpp:137-155): tokenize the
string with `strtok_r` on `".\n\r"` and run the collection loop. -/
def version_firmware_parse (s : List Char) : Option (List Nat) :=
  vfp_loop (strtok_r_all s) []

/-- C `strstr`: the first suffix of `hay` that has `pat` as a prefix,
`none` when `pat` occurs nowhere (models the returned pointer into the
buffer). -/
def strstr : List Char → List Char → Option (List Char)
  | hay, pat =>
    if pat.isPrefixOf hay then some hay
    else
      match hay with
      | [] => none
      | _ :: t => strstr t pat

/-- The fixed minimum `BL600_VERSION_FIRMWARE_MIN = { 1, 8, 88, 0 }`
(main.cpp:176). -/
def BL600_VERSION_FIRMWARE_MIN : Nat × Nat × Nat × Nat := (1, 8, 88, 0)

/-- The fixed pattern `"10\t3\t"` searched for in the query response
(main.cpp:178). -/
def fwQueryPat : List Char := "10\t3\t".data

/-- The stage at which `version_firmware_check` stops. -/
inductive FwStage where
  | queryFailed
  | shapeFailed
  | parseFailed
  | upgradeRequired
  | ready
deriving DecidableEq, Repr

/-- Embeds the staged body of `version_firmware_check`
(main.cpp:174-215): `queryOk` is the outcome of the `exec_all_AT` query
stage and `buf` the response buffer it filled; then the three `if (ok)`
blocks run in sequence: locate the prefix with `strstr`, parse the text
after it, compare against the minimum. -/
def version_firmware_check_stages (queryOk : Bool) (buf : List Char) : FwStage :=
  if ! queryOk then FwStage.queryFailed
  else
    match strstr buf fwQueryPat with
    | none => FwStage.shapeFailed
    | some p =>
      match version_firmware_parse (p.drop fwQueryPat.length) with
      | none => FwStage.parseFailed
      | some v =>
        if version_firmware_compare_le BL600_VERSION_FIRMWARE_MIN
            (v.getD 0 0, v.getD 1 0, v.getD 2 0, v.getD 3 0) then
          FwStage.ready
        else
          FwStage.upgradeRequired

/-- The boolean `version_firmware_check` returns: true exactly when all
three stages passed ("ready to work."). -/
def version_firmware_check (queryOk : Bool) (buf : List Char) : Bool :=
  version_firmware_check_stages queryOk buf = FwStage.ready

/-- The command loop of `exec_all_AT` (main.cpp:100-107).  The i-th
command's `exec_AT_verbose` return value (at.hpp is an external
collaborator, not in the visible source) is given by the oracle list
`results`, with `-1` meaning failure.  Returns the overall success flag
and the 0-based indices of the commands executed, in order. -/
def exec_AT_loop : List Int → Nat → Bool × List Nat
  | [], _ => (true, [])
  | r :: rest, i =>
    if r = -1 then (false, [i])
    else
      let tl := exec_AT_loop rest (i + 1)
      (tl.1, i :: tl.2)

/-- Embeds `exec_all_AT` (main.cpp:86-109): maintenance gate, serial
open (outcome `openOk`), then the command loop starting at index 0. -/
def exec_all_AT (st : DaemonState) (openOk : Bool) (results : List Int) :
    Bool × List Nat :=
  if ! maintenance_allowed st then (false, [])
  else if ! openOk then (false, [])
  else exec_AT_loop results 0

/-- Result of the `start` branch of `main`: the daemon state after the
branch, the value returned, and whether `task_spawn_cmd` was invoked. -/
structure StartOutcome where
  state : DaemonState
  exitCode : Int
  spawnAttempted : Bool
deriving DecidableEq, Repr

/-- Embeds the `start` branch of `main` (main.cpp:244-265): if
`daemon_running` is already true, report "already running" and return 1
without spawning; otherwise assign `daemon_should_run = true`, then call
`task_spawn_cmd` (the host task-spawning mechanism, external to the
source; its outcome is the parameter `spawnOk`); on spawn failure return
-1 without touching either flag again. -/
def start_cmd (st : DaemonState) (spawnOk : Bool) : StartOutcome :=
  if st.daemon_running then ⟨st, 1, false⟩
  else
    let st' : DaemonState := ⟨true, st.daemon_running⟩
    if spawnOk then ⟨st', 0, true⟩
    else ⟨st', -1, true⟩

/-- Modelled from the spec: outcomes of the external calls made by
`open_serial` — `tty_open`, `tty_set_speed`, `tty_use_ctsrts`
(io_tty.hpp, not in the visible source) and libc `dbg_perror`/`close`.
A failing step sets `errno` to its own error code; `dbg_perror` and
`close` may overwrite `errno` with arbitrary values
(`perrorErrno`/`closeErrno`). -/
structure SerialEnv where
  openOk : Bool
  openErrno : Nat
  speedOk : Bool
  speedErrno : Nat
  ctsOk : Bool
  ctsErrno : Nat
  perrorErrno : Nat
  closeErrno : Nat
deriving DecidableEq, Repr

/-- A `unique_file` as observed by the caller of `open_serial`: whether
the descriptor number is valid (`fileno != -1`) and whether the
underlying descriptor has been closed. -/
structure UniqueFile where
  valid : Bool
  closed : Bool
deriving DecidableEq, Repr

/-- Embeds `open_serial` (main.cpp:31-47) with `errno` threaded
explicitly: `tty_open`, then the short-circuit conjunction
`fileno(d) != -1 and tty_set_speed(...) and tty_use_ctsrts(...)`; on
failure the code saves `errno` into `true_errno`, runs `dbg_perror` and
`close(d)` (each of which may overwrite `errno`), and restores the saved
value before returning.  Returns the handle and the final `errno`. -/
def open_serial (env : SerialEnv) (errno0 : Nat) : UniqueFile × Nat :=
  let fdValid := env.openOk
  let errno1 := if fdValid then errno0 else env.openErrno
  let errno2 := if fdValid && ! env.speedOk then env.speedErrno else errno1
  let ctsRun := fdValid && env.speedOk
  let errno3 := if ctsRun && ! env.ctsOk then env.ctsErrno else errno2
  let ok := fdValid && env.speedOk && env.ctsOk
  if ok then (⟨fdValid, false⟩, errno3)
  else
    let trueErrno := errno3
    let errnoAfterPerror := env.perrorErrno
    let errnoAfterClose := env.closeErrno
    let _ := errnoAfterPerror
    let _ := errnoAfterClose
    (⟨fdValid, true⟩, trueErrno)

/-- Result of one run of the daemon task: the value returned, the
successive values assigned to `daemon_running`, and the number of
`process_one_command` invocations. -/
structure DaemonRun where
  retcode : Int
  runningWrites : List Bool
  handlerCalls : Nat
deriving DecidableEq, Repr

/-- The `while (daemon_should_run) process_one_command(...)` loop of the
daemon (main.cpp:70-71): `shouldRun n` is the value of the shared flag
at its n-th read (it is written concurrently by the control path);
returns the number of handler invocations, or `none` when the fuel runs
out before the flag is observed false. -/
def daemon_loop (shouldRun : Nat → Bool) : Nat → Nat → Option Nat
  | 0, _ => none
  | fuel + 1, n => if shouldRun n then daemon_loop shouldRun fuel (n + 1) else some n

/-- Embeds the daemon task body (main.cpp:49-77): open the serial
device (outcome `openOk`); on failure report and return 1 without
touching `daemon_running`; on success assign `daemon_running = true`,
run the loop calling the external `process_one_command` (dispatch.hpp,
not in the visible source), and assign `daemon_running = false` before
returning 0. -/
def daemon (openOk : Bool) (shouldRun : Nat → Bool) (fuel : Nat) : Option DaemonRun :=
  if ! openOk then some ⟨1, [], 0⟩
  else
    match daemon_loop shouldRun fuel 0 with
    | none => none
    | some n => some ⟨0, [true, false], n⟩

theorem exec_AT_loop_fst (results : List Int) :
    ∀ i, (exec_AT_loop results i).1 = results.all (fun r => !decide (r = -1)) := by
  induction results with
  | nil => intro i; rfl
  | cons r rest ih =>
    intro i
    by_cases h : r = -1
    · simp [exec_AT_loop, h]
    · simp [exec_AT_loop, h, ih]

theorem exec_AT_loop_ge (results : List Int) :
    ∀ i, ∀ j ∈ (exec_AT_loop results i).2, i ≤ j := by
  induction results with
  | nil => intro i j hj; simp [exec_AT_loop] at hj
  | cons r rest ih =>
    intro i j hj
    by_cases h : r = -1
    · simp [exec_AT_loop, h] at hj
      omega
    · simp [exec_AT_loop, h] at hj
      rcases hj with rfl | hj
      · exact le_refl _
      · have := ih (i + 1) j hj
        omega

theorem exec_AT_loop_nodup (results : List Int) :
    ∀ i, (exec_AT_loop results i).2.Nodup := by
  induction results with
  | nil => intro i; simp [exec_AT_loop]
  | cons r rest ih =>
    intro i
    by_cases h : r = -1
    · simp [exec_AT_loop, h]
    · simp [exec_AT_loop, h]
      refine ⟨?_, ih (i + 1)⟩
      intro hmem
      have := exec_AT_loop_ge rest (i + 1) i hmem
      omega

theorem range_map_shift (n i : Nat) :
    (List.range (n + 1)).map (fun j => i + j) =
      i :: (List.range n).map (fun j => i + 1 + j) := by
  rw [List.range_succ_eq_map]
  simp [List.map_map, Function.comp]
  intro a _
  omega

theorem exec_AT_loop_first_fail (results : List Int) :
    ∀ i k, (hk : k < results.length) → results.get ⟨k, hk⟩ = -1 →
    (∀ j (hj : j < k), results.get ⟨j, by omega⟩ ≠ -1) →
    (exec_AT_loop results i).1 = false ∧
    (exec_AT_loop results i).2 = (List.range (k + 1)).map (fun j => i + j) := by
  induction results with
  | nil =>
    intro i k hk
    simp at hk
  | cons r rest ih =>
    intro i k hk hfail hbefore
    cases k with
    | zero =>
      simp at hfail
      refine ⟨by simp [exec_AT_loop, hfail], ?_⟩
      have h1 : List.range 1 = [0] := rfl
      simp [exec_AT_loop, hfail, h1]
    | succ k' =>
      have hr : r ≠ -1 := by
        have := hbefore 0 (by omega)
        simpa using this
      have hk' : k' < rest.length := by
        simp at hk
        omega
      have hfail' : rest.get ⟨k', hk'⟩ = -1 := by simpa using hfail
      have hbefore' : ∀ j (hj : j < k'), rest.get ⟨j, by omega⟩ ≠ -1 := by
        intro j hj
        have := hbefore (j + 1) (by omega)
        simpa using this
      have hrec := ih (i + 1) k' hk' hfail' hbefore'
      constructor
      · simp [exec_AT_loop, hr, hrec.1]
      · simp only [exec_AT_loop, if_neg hr]
        rw [hrec.2]
        conv_rhs => rw [range_map_shift]

/-- C4: the batch executes commands strictly in sequence with 0-based
indices; it succeeds iff every command succeeds; no index is ever
executed twice (no retry); and if command `k` is the first to fail, the
batch returns failure and exactly commands `0..k` were executed — no
command after `k` runs. -/
theorem batch_is_fail_fast (st : DaemonState) (openOk : Bool) (results : List Int)
    (hm : maintenance_allowed st = true) (ho : openOk = true) :
    ((exec_all_AT st openOk results).1 = true ↔ ∀ r ∈ results, r ≠ -1) ∧
    ((exec_all_AT st openOk results).2).Nodup ∧
    (∀ k (hk : k < results.length), results.get ⟨k, hk⟩ = -1 →
      (∀ j (hj : j < k), results.get ⟨j, by omega⟩ ≠ -1) →
      (exec_all_AT st openOk results).1 = false ∧
      (exec_all_AT st openOk results).2 = List.range (k + 1)) := by
  have hall : exec_all_AT st openOk results = exec_AT_loop results 0 := by
    simp [exec_all_AT, hm, ho]
  rw [hall]
  refine ⟨?_, exec_AT_loop_nodup results 0, ?_⟩
  · rw [exec_AT_loop_fst results 0]
    simp
  · intro k hk hfail hbefore
    have h := exec_AT_loop_first_fail results 0 k hk hfail hbefore
    refine ⟨h.1, ?_⟩
    rw [h.2]
    apply List.map_id''
    intro a
    omega

/-- Witness for C4: the batch `[0, -1, 0]` (second command fails) run
with the daemon stopped and a successful open returns failure and
executes exactly commands 0 and 1. -/
theorem batch_is_fail_fast_witness :
    (exec_all_AT ⟨false, false⟩ true [0, -1, 0]).1 = false ∧
    (exec_all_AT ⟨false, false⟩ true [0, -1, 0]).2 = List.range 2 := by
  have h := batch_is_fail_fast ⟨false, false⟩ true [0, -1, 0] (by decide) rfl
  exact h.2.2 1 (by decide) (by decide) (by decide)

end Firmware

namespace Firmware

/-- C1: `version_firmware_compare_le` is exactly the lexicographic rule
`min.major < v.major ∨ (equal majors ∧ (min.minor < v.minor ∨ (equal
minors ∧ (min.patch < v.patch ∨ (equal patches ∧ min.build ≤
v.build)))))`; equal tuples yield true, `v` one less than `min` in build
only yields false, and `v` greater in an earlier component but lower in
build yields true. -/
theorem compare_le_is_lexicographic :
    (∀ m0 m1 m2 m3 v0 v1 v2 v3 : Nat,
      version_firmware_compare_le (m0, m1, m2, m3) (v0, v1, v2, v3) = true ↔
        (m0 < v0 ∨ (m0 = v0 ∧ (m1 < v1 ∨ (m1 = v1 ∧
          (m2 < v2 ∨ (m2 = v2 ∧ m3 ≤ v3))))))) ∧
    (∀ t : Nat × Nat × Nat × Nat, version_firmware_compare_le t t = true) ∧
    (∀ m0 m1 m2 b : Nat,
      version_firmware_compare_le (m0, m1, m2, b + 1) (m0, m1, m2, b) = false) ∧
    (∀ m0 m1 m2 b d v1 v2 : Nat,
      version_firmware_compare_le (m0, m1, m2, b + 1) (m0 + d + 1, v1, v2, b) = true) := by
  refine ⟨?_, ?_, ?_, ?_⟩
  · intro m0 m1 m2 m3 v0 v1 v2 v3
    simp [version_firmware_compare_le]
  · rintro ⟨a, b, c, d⟩
    simp [version_firmware_compare_le]
  · intro m0 m1 m2 b
    simp [version_firmware_compare_le]
  · intro m0 m1 m2 b d v1 v2
    simp [version_firmware_compare_le]
    omega

/-- Full characterisation of the token-collection loop: starting from an
accumulator shorter than four, it succeeds exactly when enough tokens
remain and every token it inspects parses, returning the accumulator
extended with the parsed values. -/
theorem vfp_loop_spec (ts : List (List Char)) :
    ∀ acc : List Nat, acc.length < 4 →
    vfp_loop ts acc =
      if (4 - acc.length ≤ ts.length ∧
          ∀ t ∈ ts.take (4 - acc.length), (parse_uint t).isSome) then
        some (acc ++ (ts.take (4 - acc.length)).map (fun t => (parse_uint t).getD 0))
      else none := by
  induction ts with
  | nil =>
    intro acc h
    rw [if_neg]
    · rfl
    · rintro ⟨h1, -⟩
      simp at h1
      omega
  | cons n rest ih =>
    intro acc h
    have hk : 4 - acc.length = (3 - acc.length) + 1 := by omega
    rw [hk, List.take_succ_cons]
    cases hp : parse_uint n with
    | none =>
      rw [if_neg]
      · simp [vfp_loop, hp]
      · rintro ⟨-, hall⟩
        have := hall n (List.mem_cons_self _ _)
        simp [hp] at this
    | some x =>
      by_cases hlen : acc.length + 1 = 4
      · have h3 : 3 - acc.length = 0 := by omega
        rw [h3]
        rw [if_pos]
        · simp [vfp_loop, hp, hlen]
        · refine ⟨by simp, ?_⟩
          intro t ht
          simp at ht
          subst ht
          simp [hp]
      · have hlt : (acc ++ [x]).length < 4 := by
          simp
          omega
        have h3 : 3 - acc.length = 4 - (acc ++ [x]).length := by
          simp
        have hL : vfp_loop (n :: rest) acc = vfp_loop rest (acc ++ [x]) := by
          simp [vfp_loop, hp, hlen]
        rw [hL, ih (acc ++ [x]) hlt, ← h3]
        by_cases hc : (3 - acc.length ≤ rest.length ∧
            ∀ t ∈ rest.take (3 - acc.length), (parse_uint t).isSome = true)
        · rw [if_pos hc, if_pos]
          · simp [hp]
          · refine ⟨?_, ?_⟩
            · simp only [List.length_cons]
              have := hc.1
              omega
            · intro t ht
              rcases List.mem_cons.mp ht with rfl | ht'
              · simp [hp]
              · exact hc.2 t ht'
        · rw [if_neg hc, if_neg]
          rintro ⟨h1, h2⟩
          apply hc
          constructor
          · simp only [List.length_cons] at h1
            omega
          · intro t ht
            exact h2 t (List.mem_cons_of_mem _ ht)

/-- C2: `version_firmware_parse` succeeds returning four components iff
the `strtok_r` tokenization (on `.`, CR, LF) yields at least four
tokens and the first four each fully parse via `parse_uint`; the result
is exactly those four parsed values, so tokens after the fourth are
ignored; any failing token among the first four, or fewer than four
tokens, yields failure. -/
theorem parse_is_first_four_tokens (s : List Char) :
    ((version_firmware_parse s).isSome ↔
      (4 ≤ (strtok_r_all s).length ∧
        ∀ t ∈ (strtok_r_all s).take 4, (parse_uint t).isSome)) ∧
    (∀ v, version_firmware_parse s = some v →
      v.length = 4 ∧
      v = ((strtok_r_all s).take 4).map (fun t => (parse_uint t).getD 0)) := by
  have h := vfp_loop_spec (strtok_r_all s) [] (by simp)
  simp only [List.length_nil, Nat.sub_zero, List.nil_append] at h
  unfold version_firmware_parse
  rw [h]
  by_cases hc : (4 ≤ (strtok_r_all s).length ∧
      ∀ t ∈ (strtok_r_all s).take 4, (parse_uint t).isSome)
  · rw [if_pos hc]
    refine ⟨by simpa using hc, ?_⟩
    intro v hv
    have hv' := Option.some.inj hv
    subst hv'
    refine ⟨?_, rfl⟩
    have := hc.1
    rw [List.length_map, List.length_take]
    omega
  · rw [if_neg hc]
    constructor
    · simp only [Option.isSome_none, Bool.false_eq_true, false_iff]
      exact hc
    · intro v hv
      exact nomatch hv

/-- Witness for C2 at the concrete input `"1.8.88.0"`. -/
theorem parse_is_first_four_tokens_witness :
    ([1, 8, 88, 0] : List Nat).length = 4 := by
  have h := (parse_is_first_four_tokens ("1.8.88.0".data)).2 [1, 8, 88, 0] (by decide)
  exact h.1

/-- C9: consecutive delimiters are collapsed by `strtok_r`, so inputs
with empty version components still parse: the empty component is
silently skipped and the first four non-empty numeric tokens are
returned. -/
theorem empty_components_are_skipped :
    strtok_r_all ("1..8.88.0".data) =
      ["1".data, "8".data, "88".data, "0".data] ∧
    version_firmware_parse ("1..8.88.0".data) = some [1, 8, 88, 0] ∧
    version_firmware_parse ("1.8\r\n\r\n88.0".data) = some [1, 8, 88, 0] := by
  decide

/-- C10: `strtoul` with base 0 accepts hexadecimal, octal and negative
tokens: `"0x1f"` parses as 31, `"010"` as 8, `"-1"` wraps modulo 2³² to
4294967295, and all are accepted as version components by
`version_firmware_parse`. -/
theorem strtoul_base0_alternate_notations :
    parse_uint ("0x1f".data) = some 31 ∧
    parse_uint ("010".data) = some 8 ∧
    parse_uint ("-1".data) = some (2 ^ 32 - 1) ∧
    version_firmware_parse ("0x1f.010.-1.7".data) =
      some [31, 8, 2 ^ 32 - 1, 7] := by
  decide

/-- C3: the firmware check proceeds through its stages in sequence:
`"10\t3\t1.8.88.0\r\n"` against the fixed minimum passes (prints "ready
to work."); `"10\t3\t1.8.87.0"` fails the comparison ("upgrade
required."); a response without the `"10\t3\t"` prefix stops at the
shape-check stage, the comparison never being evaluated;
`"10\t3\t1.8.x.0"` stops at the parse stage; and when the query stage
fails no later stage runs at all. -/
theorem firmware_check_stage_scenarios :
    version_firmware_check_stages true ("10\t3\t1.8.88.0\r\n".data) = FwStage.ready ∧
    version_firmware_check true ("10\t3\t1.8.88.0\r\n".data) = true ∧
    version_firmware_check_stages true ("10\t3\t1.8.87.0".data) = FwStage.upgradeRequired ∧
    version_firmware_check_stages true ("1.8.88.0".data) = FwStage.shapeFailed ∧
    version_firmware_check_stages true ("10\t3\t1.8.x.0".data) = FwStage.parseFailed ∧
    (∀ buf : List Char,
      version_firmware_check_stages false buf = FwStage.queryFailed) := by
  refine ⟨by decide, by decide, by decide, by decide, by decide, ?_⟩
  intro buf
  rfl

/-- C7: `maintenance_allowed` returns true iff `daemon_running`
(`actually_running`) is false, and its value does not depend on
`daemon_should_run` (`requested_run`). -/
theorem maintenance_allowed_iff_not_running :
    (∀ st : DaemonState,
      maintenance_allowed st = true ↔ st.daemon_running = false) ∧
    (∀ s₁ s₂ : DaemonState, s₁.daemon_running = s₂.daemon_running →
      maintenance_allowed s₁ = maintenance_allowed s₂) := by
  constructor
  · intro st
    simp [maintenance_allowed]
  · intro s₁ s₂ h
    simp [maintenance_allowed, h]

/-- Witness for C7: two states differing only in `daemon_should_run`
give the same answer. -/
theorem maintenance_allowed_iff_not_running_witness :
    maintenance_allowed ⟨true, false⟩ = maintenance_allowed ⟨false, false⟩ :=
  maintenance_allowed_iff_not_running.2 ⟨true, false⟩ ⟨false, false⟩ rfl

/-- C5 counterexample: with the daemon fully stopped, a failing spawn
does not leave the daemon state unchanged — `daemon_should_run` was
assigned true before the spawn and is not rolled back. -/
theorem start_spawn_failure_changes_state :
    (start_cmd ⟨false, false⟩ false).state ≠ (⟨false, false⟩ : DaemonState) := by
  decide

/-- C5 (amended): if `actually_running` is already true the start
request is rejected with exit code 1 and no background unit is spawned;
otherwise `requested_run` is set true and the spawn is attempted; if the
spawn fails the scheduling error is surfaced as return value -1 and
`actually_running` is untouched, but `requested_run` remains true — it
is assigned before the spawn and never rolled back. -/
theorem start_cmd_spec (st : DaemonState) (spawnOk : Bool) :
    (st.daemon_running = true →
      start_cmd st spawnOk = ⟨st, 1, false⟩) ∧
    (st.daemon_running = false →
      (start_cmd st spawnOk).spawnAttempted = true ∧
      (start_cmd st spawnOk).state = ⟨true, false⟩ ∧
      (start_cmd st spawnOk).exitCode = if spawnOk then 0 else -1) := by
  constructor
  · intro h
    simp [start_cmd, h]
  · intro h
    cases hs : spawnOk <;> simp [start_cmd, h]

/-- Witness for C5 (amended) at the stopped state and a failing
spawn. -/
theorem start_cmd_spec_witness :
    (start_cmd ⟨false, false⟩ false).spawnAttempted = true ∧
    (start_cmd ⟨false, false⟩ false).state = ⟨true, false⟩ ∧
    (start_cmd ⟨false, false⟩ false).exitCode = -1 := by
  have h := (start_cmd_spec ⟨false, false⟩ false).2 rfl
  simpa using h

/-- C6: when `tty_open` succeeds but a configuration step
(`tty_set_speed` or `tty_use_ctsrts`) fails, `open_serial` closes the
handle before returning, and the `errno` the caller observes is the one
produced by the original failing step, even though `dbg_perror` and the
cleanup `close` executed afterwards may themselves alter `errno`. -/
theorem open_serial_preserves_errno (env : SerialEnv) (errno0 : Nat)
    (hopen : env.openOk = true)
    (hfail : env.speedOk = false ∨ env.ctsOk = false) :
    (open_serial env errno0).1.closed = true ∧
    (open_serial env errno0).2 =
      (if env.speedOk then env.ctsErrno else env.speedErrno) := by
  rcases hfail with h | h
  · simp [open_serial, hopen, h]
  · cases hs : env.speedOk
    · simp [open_serial, hopen, hs]
    · simp [open_serial, hopen, hs, h]

/-- Witness for C6: speed configuration fails with error 22 while
`dbg_perror` and `close` would leave errno 9; the caller still sees 22
and a closed handle. -/
theorem open_serial_preserves_errno_witness :
    (open_serial ⟨true, 0, false, 22, true, 5, 9, 9⟩ 0).1.closed = true ∧
    (open_serial ⟨true, 0, false, 22, true, 5, 9, 9⟩ 0).2 = 22 := by
  have h := open_serial_preserves_errno ⟨true, 0, false, 22, true, 5, 9, 9⟩ 0 rfl
    (Or.inl rfl)
  simpa using h

theorem daemon_loop_spec (shouldRun : Nat → Bool) :
    ∀ fuel i n, daemon_loop shouldRun fuel i = some n →
      i ≤ n ∧ (∀ j, i ≤ j → j < n → shouldRun j = true) ∧ shouldRun n = false := by
  intro fuel
  induction fuel with
  | zero =>
    intro i n h
    exact absurd h (by simp [daemon_loop])
  | succ f ih =>
    intro i n h
    by_cases hs : shouldRun i
    · simp only [daemon_loop, hs, if_true] at h
      have hr := ih (i + 1) n h
      refine ⟨by omega, ?_, hr.2.2⟩
      intro j hij hjn
      by_cases hji : j = i
      · subst hji
        exact hs
      · exact hr.2.1 j (by omega) hjn
    · simp [daemon_loop, hs] at h
      subst h
      refine ⟨le_refl _, ?_, by simpa using hs⟩
      intro j h1 h2
      omega

/-- C8: `daemon_running` is written true only if the serial open
succeeded: on open failure the task returns 1 having never written the
flag; on success it writes true, invokes `process_one_command` exactly
while `daemon_should_run` reads true, and writes false on loop exit
before returning 0. -/
theorem daemon_running_requires_open (openOk : Bool) (shouldRun : Nat → Bool)
    (fuel : Nat) :
    (openOk = false → daemon openOk shouldRun fuel = some ⟨1, [], 0⟩) ∧
    (∀ res, daemon openOk shouldRun fuel = some res →
      (true ∈ res.runningWrites → openOk = true) ∧
      (openOk = true →
        res.retcode = 0 ∧
        res.runningWrites = [true, false] ∧
        (∀ j, j < res.handlerCalls → shouldRun j = true) ∧
        shouldRun res.handlerCalls = false)) := by
  constructor
  · intro h
    simp [daemon, h]
  · intro res hres
    cases ho : openOk
    · subst ho
      have hres' : (⟨1, [], 0⟩ : DaemonRun) = res := Option.some.inj hres
      subst hres'
      constructor
      · intro hmem
        simp at hmem
      · intro hcontra
        exact absurd hcontra (by simp)
    · subst ho
      cases hl : daemon_loop shouldRun fuel 0 with
      | none =>
        simp [daemon, hl] at hres
      | some n =>
        have hd : daemon true shouldRun fuel = some ⟨0, [true, false], n⟩ := by
          simp [daemon, hl]
        rw [hd] at hres
        have hres' : (⟨0, [true, false], n⟩ : DaemonRun) = res := Option.some.inj hres
        subst hres'
        have spec := daemon_loop_spec shouldRun fuel 0 n hl
        refine ⟨fun _ => rfl, fun _ => ⟨rfl, rfl, ?_, spec.2.2⟩⟩
        intro j hj
        exact spec.2.1 j (Nat.zero_le j) hj

/-- Witness for C8 with a successful open, the flag reading true for
the first two loop iterations, and fuel 5: the handler runs exactly
twice and the flag reads false at call count 2. -/
theorem daemon_running_requires_open_witness :
    (fun n => decide (n < 2)) 2 = false ∧ (0 : Int) = 0 := by
  have h := (daemon_running_requires_open true (fun n => decide (n < 2)) 5).2
    ⟨0, [true, false], 2⟩ (by decide)
  exact ⟨(h.2 rfl).2.2.2, (h.2 rfl).1⟩

end Firmware
